import Mathlib

/-!
Verification of `icc_wcs_vcgt.py`, a converter that takes a monitor ICC
profile carrying WCS calibration data and produces the same profile with a
synthesized VCGT tag appended.

The embedding models byte strings as `List Nat` (each element a byte value),
Python `struct` packing/unpacking explicitly (with `Option` capturing
`struct.error`), Python `dict` as an insertion-ordered association list, and
Python `float` values as rationals (`ℚ`), with `int(…)` as truncation toward
zero.  The XML parse performed by the Python standard library
(`cdmp_data.decode("utf16")` followed by `xml.etree.ElementTree.fromstring`)
is external library code, so the decoded document is modelled as an abstract
`Xml` tree and the decoding step as a function parameter
`decode : Bytes → Option Xml`; attribute values are modelled as the
rationals that the stdlib `float` parse yields.
-/

set_option maxRecDepth 100000

namespace IccWcsVcgt

/-- Byte strings are lists of byte values. -/
abbrev Bytes := List Nat

/-- Big-endian interpretation of a byte list, as in `struct.unpack(">I", …)`. -/
def bytesToNatBE (l : Bytes) : Nat := l.foldl (fun a b => a * 256 + b) 0

/-- Python slice `d[o:o+n]` (clamping at the end of the list). -/
def sliceN (d : Bytes) (o n : Nat) : Bytes := (d.drop o).take n

/-- Big-endian bytes of a 32-bit value, as in `struct.pack(">I", n)`. -/
def u32be (n : Nat) : Bytes :=
  [n / 16777216 % 256, n / 65536 % 256, n / 256 % 256, n % 256]

/-- Model of `struct.pack(">I", n)` for a natural number: `struct.error`
(`none`) when the value does not fit in 32 bits. -/
def packU32 (n : Nat) : Option Bytes :=
  if n < 4294967296 then some (u32be n) else none

/-- Model of `struct.pack(">I", n)` for a Python integer (possibly
negative): `struct.error` (`none`) when outside `[0, 2^32)`. -/
def packU32I (n : Int) : Option Bytes :=
  if 0 ≤ n ∧ n < 4294967296 then some (u32be n.toNat) else none

/-- Model of `struct.pack("4s", s)`: truncate to 4 bytes, pad with zeros. -/
def pack4s (s : Bytes) : Bytes :=
  s.take 4 ++ List.replicate (4 - min 4 s.length) 0

/-- Byte constants for the 4-byte tags used by the script. -/
def acspSig : Bytes := [97, 99, 115, 112]

/-- Bytes of `"mntr"`. -/
def mntrSig : Bytes := [109, 110, 116, 114]

/-- Bytes of `"RGB "`. -/
def rgbSig : Bytes := [82, 71, 66, 32]

/-- Bytes of `"MSFT"`. -/
def msftSig : Bytes := [77, 83, 70, 84]

/-- Bytes of `"MS00"` (the WCS container tag signature). -/
def ms00Sig : Bytes := [77, 83, 48, 48]

/-- Bytes of `"MS10"` (the WCS sub-format marker). -/
def ms10Sig : Bytes := [77, 83, 49, 48]

/-- Bytes of `"vcgt"`. -/
def vcgtSig : Bytes := [118, 99, 103, 116]

/-- Model of `check_signature` (lines 26–55).  The single
`struct.unpack_from(">I4xI4s4s16x4s4s36x4s", prof_data, 0)` call needs 84
bytes; on shorter input it raises `struct.error`, modelled as `none`.
Field offsets: size 0, version 8, device class 12, color space 16,
file signature 36, platform 40, creator 80. -/
def check_signature (d : Bytes) : Option Bool :=
  if 84 ≤ d.length then
    some (
      if bytesToNatBE (sliceN d 0 4) ≠ d.length then false
      else if bytesToNatBE (sliceN d 0 4) % 4 ≠ 0 then false
      else if sliceN d 36 4 ≠ acspSig then false
      else if 71303168 < bytesToNatBE (sliceN d 8 4) then false
      else if sliceN d 12 4 ≠ mntrSig then false
      else if sliceN d 16 4 ≠ rgbSig then false
      else if sliceN d 40 4 ≠ msftSig then false
      else if sliceN d 80 4 ≠ msftSig then false
      else true)
  else none

/-- Insertion-ordered association list modelling a Python `dict` with
`bytes` keys. -/
abbrev TagTable := List (Bytes × Bytes)

/-- Key membership, as in `b"vcgt" in tags`. -/
def TagTable.containsKey (t : TagTable) (k : Bytes) : Bool :=
  t.any (fun kv => kv.1 == k)

/-- Lookup, as in `tags.get(k)`. -/
def TagTable.lookup (t : TagTable) (k : Bytes) : Option Bytes :=
  (t.find? (fun kv => kv.1 == k)).map (fun kv => kv.2)

/-- Insertion, as in `tags[k] = v`: replaces in place when the key exists
(keeping its position), otherwise appends, exactly like a Python dict. -/
def TagTable.insert (t : TagTable) (k v : Bytes) : TagTable :=
  match t with
  | [] => [(k, v)]
  | kv :: rest => if kv.1 == k then (k, v) :: rest else kv :: TagTable.insert rest k v

/-- Loop body of `parse_tags` (lines 62–66): for remaining count `m` and
loop index `i`, unpack `">4sII"` at offset `132 + 12*i` (raising
`struct.error`, i.e. `none`, when fewer than 12 bytes remain) and insert
the slice `prof_data[tag_offset : tag_offset+tag_size]`. -/
def parseTagsGo (d : Bytes) : Nat → Nat → TagTable → Option TagTable
  | 0, _, acc => some acc
  | m + 1, i, acc =>
    if 132 + 12 * i + 12 ≤ d.length then
      let sig := sliceN d (132 + 12 * i) 4
      let off := bytesToNatBE (sliceN d (132 + 12 * i + 4) 4)
      let sz := bytesToNatBE (sliceN d (132 + 12 * i + 8) 4)
      parseTagsGo d m (i + 1) (acc.insert sig (sliceN d off sz))
    else none

/-- Model of `parse_tags` (lines 58–67): read the 32-bit tag count at
offset 128, then parse that many 12-byte entries starting at offset 132. -/
def parse_tags (d : Bytes) : Option TagTable :=
  if 128 + 4 ≤ d.length then
    parseTagsGo d (bytesToNatBE (sliceN d 128 4)) 0 []
  else none

/-- Model of `parse_wcs` (lines 70–83): unpack `">4s4xIIIIII"` (32 bytes)
from the WCS tag body, assert the internal signature is `"MS10"` (an
`AssertionError`, like a `struct.error` on short data, aborts the run:
both are `none`), and slice out the three sub-blocks. -/
def parse_wcs (w : Bytes) : Option (Bytes × Bytes × Bytes) :=
  if 32 ≤ w.length then
    if sliceN w 0 4 = ms10Sig then
      let cdmpOfs := bytesToNatBE (sliceN w 8 4)
      let cdmpSize := bytesToNatBE (sliceN w 12 4)
      let campOfs := bytesToNatBE (sliceN w 16 4)
      let campSize := bytesToNatBE (sliceN w 20 4)
      let gmmpOfs := bytesToNatBE (sliceN w 24 4)
      let gmmpSize := bytesToNatBE (sliceN w 28 4)
      some (sliceN w cdmpOfs cdmpSize,
            sliceN w campOfs campSize,
            sliceN w gmmpOfs gmmpSize)
    else none
  else none

/-- Abstract model of a decoded XML element: tag name (with the namespace
URI in braces, as ElementTree produces), attributes (values as the
rationals the stdlib `float` parse yields), and child elements in document
order. -/
inductive Xml where
  | node : String → List (String × ℚ) → List Xml → Xml

/-- Tag name of an element. -/
def Xml.tag : Xml → String
  | .node t _ _ => t

/-- Attribute list of an element. -/
def Xml.attrs : Xml → List (String × ℚ)
  | .node _ a _ => a

/-- Children of an element. -/
def Xml.children : Xml → List Xml
  | .node _ _ c => c

/-- Children of `x` whose tag equals `t`. -/
def childrenTagged (t : String) (x : Xml) : List Xml :=
  x.children.filter (fun c => c.tag == t)

/-- ElementTree path selection: `findall` over a `/`-separated path
collects, in document order, the elements reached by following each path
step through child elements. -/
def selectPath : List String → List Xml → List Xml
  | [], xs => xs
  | t :: ts, xs => selectPath ts (xs.flatMap (childrenTagged t))

/-- ElementTree `find`: the first element matching the path, or `none`. -/
def Xml.findPath (x : Xml) (p : List String) : Option Xml :=
  (selectPath p [x]).head?

/-- ElementTree `get`: attribute value with a default. -/
def Xml.getAttr (x : Xml) (k : String) (dflt : ℚ) : ℚ :=
  match x.attrs.find? (fun kv => kv.1 == k) with
  | some kv => kv.2
  | none => dflt

/-- Namespace-qualified tag name, as ElementTree resolves `ns:name`. -/
def qn (ns name : String) : String := "\x7b" ++ ns ++ "\x7d" ++ name

/-- ColorDeviceModel namespace URI. -/
def cdmNS : String :=
  "http://schemas.microsoft.com/windows/2005/02/color/ColorDeviceModel"

/-- Calibration namespace URI. -/
def calNS : String :=
  "http://schemas.microsoft.com/windows/2007/11/color/Calibration"

/-- WcsCommonProfileTypes namespace URI. -/
def wcsNS : String :=
  "http://schemas.microsoft.com/windows/2005/02/color/WcsCommonProfileTypes"

/-- Path used by `extract_calib_data` (lines 94–97). -/
def calibPath : List String :=
  [qn cdmNS "Calibration",
   qn calNS "AdapterGammaConfiguration",
   qn calNS "ParameterizedCurves"]

/-- Qualified tag of the red channel curve element. -/
def redTag : String := qn wcsNS "RedTRC"

/-- Qualified tag of the green channel curve element. -/
def greenTag : String := qn wcsNS "GreenTRC"

/-- Qualified tag of the blue channel curve element. -/
def blueTag : String := qn wcsNS "BlueTRC"

/-- Attribute names allowed on a channel curve element (line 106–107). -/
def allowedAttrs : List String := ["Gamma", "Gain", "Offset1"]

/-- Per-channel calibration triple `(gamma, offset, gain)`. -/
abbrev Curve := ℚ × ℚ × ℚ

/-- Calibration data for the three channels, modelling the dict
`{"r": …, "g": …, "b": …}` built by `extract_calib_data`. -/
structure CalibData where
  r : Curve
  g : Curve
  b : Curve

/-- Channel extraction from the `ParameterizedCurves` element
(lines 100–111): if the channel element is absent, the defaults give the
identity curve `(1, 0, 1)`; if present, its attribute keys must be a
subset of `{Gamma, Gain, Offset1}` (the `assert` on lines 106–107,
`none` on failure), and the triple is read as
`(Gamma default 1, Offset1 default 0, Gain default 1)`. -/
def extractChannel (pc : Xml) (t : String) : Option Curve :=
  match pc.findPath [t] with
  | none => some (1, 0, 1)
  | some ct =>
    if ct.attrs.all (fun kv => allowedAttrs.contains kv.1) then
      some (ct.getAttr "Gamma" 1, ct.getAttr "Offset1" 0, ct.getAttr "Gain" 1)
    else none

/-- Model of `extract_calib_data` (lines 86–112), applied to the decoded
document: locate `Calibration/AdapterGammaConfiguration/ParameterizedCurves`
(the `assert` on line 98 makes absence fatal, i.e. `none`), then extract
the three channels. -/
def extract_calib_data (root : Xml) : Option CalibData :=
  match root.findPath calibPath with
  | none => none
  | some pc => do
    let r ← extractChannel pc redTag
    let g ← extractChannel pc greenTag
    let b ← extractChannel pc blueTag
    some ⟨r, g, b⟩

/-- Python `int(q)` on a rational: truncation toward zero. -/
def pyInt (q : ℚ) : Int := Int.tdiv q.num q.den

/-- Encoding of one calibration value (line 120):
`struct.pack(">I", int(v * 65535))`. -/
def encodeVal (v : ℚ) : Option Bytes := packU32I (pyInt (v * 65535))

/-- Encoding of one channel triple, values in tuple order
(gamma, offset, gain). -/
def encodeTriple (t : Curve) : Option Bytes := do
  let a ← encodeVal t.1
  let b ← encodeVal t.2.1
  let c ← encodeVal t.2.2
  some (a ++ b ++ c)

/-- Bytes of `b"vcgt\0\0\0\0\0\0\0\1"` (line 117). -/
def vcgtPrefix : Bytes := [118, 99, 103, 116, 0, 0, 0, 0, 0, 0, 0, 1]

/-- Model of `generate_vcgt` (lines 115–121): fixed 12-byte prefix, then
the three channels in r, g, b order. -/
def generate_vcgt (c : CalibData) : Option Bytes := do
  let r ← encodeTriple c.r
  let g ← encodeTriple c.g
  let b ← encodeTriple c.b
  some (vcgtPrefix ++ r ++ g ++ b)

/-- Rounded-up placement size of a tag value (lines 130–131):
`size = len + 3; size -= size % 4`. -/
def roundedSize (m : Nat) : Nat := (m + 3) - (m + 3) % 4

/-- Padding appended after a tag value (lines 135–137):
`pad = 4 - len % 4`, appended only when `pad < 4`. -/
def padAmt (m : Nat) : Nat := if 4 - m % 4 < 4 then 4 - m % 4 else 0

/-- First loop of `generate_body` (lines 127–132): emit one 12-byte table
entry per tag, advancing the offset by the rounded-up size; a 32-bit
overflow of an offset or length is a `struct.error` (`none`). -/
def genEntries : TagTable → Nat → Option Bytes
  | [], _ => some []
  | (k, v) :: rest, off => do
    let o ← packU32 off
    let s ← packU32 v.length
    let r ← genEntries rest (off + roundedSize v.length)
    some (pack4s k ++ o ++ s ++ r)

/-- Second loop of `generate_body` (lines 133–137): concatenate each tag
value followed by its zero padding. -/
def genBlobs : TagTable → Bytes
  | [] => []
  | (_, v) :: rest => v ++ List.replicate (padAmt v.length) 0 ++ genBlobs rest

/-- Model of `generate_body` (lines 124–138). -/
def generate_body (t : TagTable) : Option Bytes := do
  let c ← packU32 t.length
  let e ← genEntries t (132 + t.length * 12)
  some (c ++ e ++ genBlobs t)

/-- Model of `create_profile` (lines 141–143):
`struct.pack(">I", len(body) + 128) + header[4:] + body`. -/
def create_profile (header body : Bytes) : Option Bytes :=
  (packU32 (body.length + 128)).map (fun s => s ++ header.drop 4 ++ body)

/-- Outcome of one run of `main` (lines 146–167).  Clean reported
conditions keep their diagnostic identity; uncaught exceptions
(`struct.error`, `AssertionError`, decode errors) are separate
constructors since they abort the process. -/
inductive MainOutcome where
  | headerError
  | invalidProfile
  | tagTableError
  | alreadyHasVcgt
  | wcsMissing
  | wcsStructError
  | calibStructError
  | encodeRangeError
  | buildPackError
  | ok (out : Bytes)
deriving DecidableEq

/-- Process result code: 0 on success, 1 for the clean reported failures
(explicit `return 1`) and also for an uncaught exception (the interpreter
exits with status 1). -/
def MainOutcome.exitCode : MainOutcome → Nat
  | .ok _ => 0
  | _ => 1

/-- Bytes written to the output file.  The output file is opened (and
truncated) only on line 165, after every check and after `generate_vcgt`;
so every earlier failure writes nothing.  A failure inside
`f.write(create_profile(…, generate_body(…)))` happens after the file was
opened for writing, leaving an empty file. -/
def MainOutcome.written : MainOutcome → Option Bytes
  | .ok out => some out
  | .buildPackError => some []
  | _ => none

/-- Model of `main` (lines 146–167), with the stdlib UTF-16 + XML decode
step abstracted as `decode`. -/
def main (decode : Bytes → Option Xml) (d : Bytes) : MainOutcome :=
  match check_signature d with
  | none => .headerError
  | some false => .invalidProfile
  | some true =>
    match parse_tags d with
    | none => .tagTableError
    | some tags =>
      if tags.containsKey vcgtSig then .alreadyHasVcgt
      else
        match tags.lookup ms00Sig with
        | none => .wcsMissing
        | some wcs =>
          match parse_wcs wcs with
          | none => .wcsStructError
          | some (cdmp, _, _) =>
            match decode cdmp with
            | none => .calibStructError
            | some root =>
              match extract_calib_data root with
              | none => .calibStructError
              | some calib =>
                match generate_vcgt calib with
                | none => .encodeRangeError
                | some v =>
                  match generate_body (tags.insert vcgtSig v) with
                  | none => .buildPackError
                  | some body =>
                    match create_profile (d.take 128) body with
                    | none => .buildPackError
                    | some out => .ok out

/-! ### Byte-level helper lemmas -/

theorem length_u32be (n : Nat) : (u32be n).length = 4 := rfl

theorem bytesToNatBE_u32be {n : Nat} (h : n < 4294967296) :
    bytesToNatBE (u32be n) = n := by
  simp only [u32be, bytesToNatBE, List.foldl_cons, List.foldl_nil]
  omega

theorem length_sliceN_of_le {d : Bytes} {o n : Nat} (h : o + n ≤ d.length) :
    (sliceN d o n).length = n := by
  simp only [sliceN, List.length_take, List.length_drop]
  omega

theorem sliceN_append_right (A B : Bytes) (o n : Nat) :
    sliceN (A ++ B) (A.length + o) n = sliceN B o n := by
  simp [sliceN, List.drop_append]

theorem sliceN_append_left {A : Bytes} (B : Bytes) {o n : Nat}
    (h : o + n ≤ A.length) : sliceN (A ++ B) o n = sliceN A o n := by
  unfold sliceN
  rw [List.drop_append_of_le_length (by omega),
    List.take_append_of_le_length (by simp only [List.length_drop]; omega)]

theorem sliceN_full (A : Bytes) : sliceN A 0 A.length = A := by
  simp [sliceN]

theorem sliceN_nested {d X : Bytes} {p m : Nat} (hX : sliceN d p m = X)
    (q n : Nat) (hqn : q + n ≤ m) :
    sliceN d (p + q) n = sliceN X q n := by
  subst hX
  simp only [sliceN, List.drop_take, List.take_take, List.drop_drop]
  rw [Nat.min_eq_left (by omega)]

theorem packU32_eq_some {n : Nat} {o : Bytes} (h : packU32 n = some o) :
    n < 4294967296 ∧ o = u32be n := by
  unfold packU32 at h
  split at h
  · exact ⟨by assumption, (Option.some.inj h).symm⟩
  · exact absurd h (by simp)

theorem length_pack4s (k : Bytes) : (pack4s k).length = 4 := by
  simp only [pack4s, List.length_append, List.length_take, List.length_replicate]
  omega

theorem pack4s_of_length_four {k : Bytes} (h : k.length = 4) : pack4s k = k := by
  simp [pack4s, h, List.take_of_length_le (le_of_eq h)]

/-! ### TagTable helper lemmas -/

/-- Keys of a tag table. -/
def tagKeys (t : TagTable) : List Bytes := t.map Prod.fst

/-- A table has pairwise distinct keys. -/
def keysNodup (t : TagTable) : Prop := (tagKeys t).Nodup

theorem containsKey_eq_true_iff {t : TagTable} {k : Bytes} :
    t.containsKey k = true ↔ k ∈ tagKeys t := by
  simp only [TagTable.containsKey, List.any_eq_true, tagKeys, List.mem_map,
    beq_iff_eq]

theorem containsKey_eq_false_iff {t : TagTable} {k : Bytes} :
    t.containsKey k = false ↔ k ∉ tagKeys t := by
  rw [← Bool.not_eq_true, not_iff_not]
  exact containsKey_eq_true_iff

theorem insert_of_not_containsKey {t : TagTable} {k v : Bytes}
    (h : t.containsKey k = false) : t.insert k v = t ++ [(k, v)] := by
  induction t with
  | nil => rfl
  | cons kv rest ih =>
    simp only [TagTable.containsKey, List.any_cons, Bool.or_eq_false_iff] at h
    simp only [TagTable.insert, h.1, ih h.2]
    simp [h.1]

theorem containsKey_append_singleton (t : TagTable) (k v : Bytes) :
    (t ++ [(k, v)]).containsKey k = true := by
  simp [TagTable.containsKey, List.any_append]

theorem mem_tagKeys_insert {t : TagTable} {k v a : Bytes}
    (h : a ∈ tagKeys (t.insert k v)) : a ∈ tagKeys t ∨ a = k := by
  induction t with
  | nil => simpa [TagTable.insert, tagKeys] using h
  | cons kv rest ih =>
    simp only [TagTable.insert] at h
    split at h
    · rename_i hb
      simp only [tagKeys, List.map_cons, List.mem_cons] at h ⊢
      rcases h with h | h
      · exact Or.inl (Or.inl (h.trans (beq_iff_eq.mp hb).symm))
      · exact Or.inl (Or.inr h)
    · simp only [tagKeys, List.map_cons, List.mem_cons] at h ⊢
      rcases h with h | h
      · exact Or.inl (Or.inl h)
      · rcases ih h with h2 | h2
        · exact Or.inl (Or.inr h2)
        · exact Or.inr h2

theorem keysNodup_insert {t : TagTable} {k v : Bytes} (h : keysNodup t) :
    keysNodup (t.insert k v) := by
  induction t with
  | nil => simp [TagTable.insert, keysNodup, tagKeys]
  | cons kv rest ih =>
    simp only [keysNodup, tagKeys, List.map_cons, List.nodup_cons] at h
    simp only [TagTable.insert]
    split
    · rename_i hb
      simp only [keysNodup, tagKeys, List.map_cons, List.nodup_cons]
      exact ⟨fun hm => h.1 (by rwa [beq_iff_eq.mp hb]), h.2⟩
    · rename_i hb
      simp only [keysNodup, tagKeys, List.map_cons, List.nodup_cons]
      refine ⟨fun hm => ?_, ih h.2⟩
      rcases mem_tagKeys_insert hm with h2 | h2
      · exact h.1 h2
      · exact hb (by simp [h2])

theorem mem_insert {t : TagTable} {k v : Bytes} {kv : Bytes × Bytes}
    (h : kv ∈ t.insert k v) : kv ∈ t ∨ kv = (k, v) := by
  induction t with
  | nil => simpa [TagTable.insert] using h
  | cons kv0 rest ih =>
    simp only [TagTable.insert] at h
    split at h
    · simp only [List.mem_cons] at h ⊢
      tauto
    · simp only [List.mem_cons] at h ⊢
      rcases h with h | h
      · exact Or.inl (Or.inl h)
      · rcases ih h with h2 | h2
        · exact Or.inl (Or.inr h2)
        · exact Or.inr h2

theorem keysNodup_append_singleton {t : TagTable} {k v : Bytes}
    (h : keysNodup t) (hk : t.containsKey k = false) :
    keysNodup (t ++ [(k, v)]) := by
  simp only [keysNodup, tagKeys, List.map_append, List.map_cons, List.map_nil] at *
  simp only [List.nodup_append, List.nodup_cons, List.nodup_nil]
  refine ⟨h, by simp, fun a ha hb => ?_⟩
  simp only [List.mem_singleton] at hb
  subst hb
  exact (containsKey_eq_false_iff.mp hk) ha

theorem lookup_eq_none_of_not_containsKey {t : TagTable} {k : Bytes}
    (h : t.containsKey k = false) : t.lookup k = none := by
  unfold TagTable.lookup
  rw [Option.map_eq_none', List.find?_eq_none]
  intro kv hm hb
  have hk := containsKey_eq_false_iff.mp h
  simp only [tagKeys, List.mem_map] at hk
  exact hk ⟨kv, hm, beq_iff_eq.mp hb⟩

/-! ### Body serialization structure lemmas -/

theorem roundedSize_eq (m : Nat) : roundedSize m = m + padAmt m := by
  unfold roundedSize padAmt
  split <;> omega

theorem roundedSize_mod (m : Nat) : roundedSize m % 4 = 0 := by
  unfold roundedSize
  omega

theorem genBlobs_cons (k v : Bytes) (rest : TagTable) :
    genBlobs ((k, v) :: rest) =
      v ++ List.replicate (padAmt v.length) 0 ++ genBlobs rest := rfl

theorem genBlobs_length_mod (T : TagTable) : (genBlobs T).length % 4 = 0 := by
  induction T with
  | nil => rfl
  | cons kv rest ih =>
    obtain ⟨k, v⟩ := kv
    rw [genBlobs_cons]
    simp only [List.length_append, List.length_replicate]
    have h1 := roundedSize_eq v.length
    have h2 := roundedSize_mod v.length
    omega

theorem genEntries_cons_inv {k v : Bytes} {rest : TagTable} {off : Nat}
    {e : Bytes} (h : genEntries ((k, v) :: rest) off = some e) :
    ∃ eR, off < 4294967296 ∧ v.length < 4294967296 ∧
      genEntries rest (off + roundedSize v.length) = some eR ∧
      e = pack4s k ++ u32be off ++ u32be v.length ++ eR := by
  rw [genEntries] at h
  cases ho : packU32 off with
  | none => rw [ho] at h; simp at h
  | some o =>
    rw [ho] at h
    cases hs : packU32 v.length with
    | none => rw [hs] at h; simp at h
    | some s =>
      rw [hs] at h
      cases hr : genEntries rest (off + roundedSize v.length) with
      | none => rw [hr] at h; simp at h
      | some r =>
        rw [hr] at h
        obtain ⟨ho1, ho2⟩ := packU32_eq_some ho
        obtain ⟨hs1, hs2⟩ := packU32_eq_some hs
        subst ho2 hs2
        exact ⟨r, ho1, hs1, rfl, (Option.some.inj h).symm⟩

theorem genEntries_length : ∀ (T : TagTable) (off : Nat) (e : Bytes),
    genEntries T off = some e → e.length = 12 * T.length
  | [], _, _, h => by
    simp only [genEntries, Option.some.injEq] at h
    simp [← h]
  | (k, v) :: rest, off, e, h => by
    obtain ⟨eR, _, _, hr, he⟩ := genEntries_cons_inv h
    have := genEntries_length rest _ eR hr
    subst he
    simp only [List.length_append, length_pack4s, length_u32be,
      List.length_cons, this]
    ring

theorem generate_body_inv {T : TagTable} {body : Bytes}
    (h : generate_body T = some body) :
    ∃ e, T.length < 4294967296 ∧
      genEntries T (132 + T.length * 12) = some e ∧
      body = u32be T.length ++ e ++ genBlobs T := by
  rw [generate_body] at h
  cases hc : packU32 T.length with
  | none => rw [hc] at h; simp at h
  | some c =>
    rw [hc] at h
    cases he : genEntries T (132 + T.length * 12) with
    | none => rw [he] at h; simp at h
    | some e =>
      rw [he] at h
      obtain ⟨hc1, hc2⟩ := packU32_eq_some hc
      subst hc2
      exact ⟨e, hc1, rfl, (Option.some.inj h).symm⟩

theorem generate_body_length {T : TagTable} {body : Bytes}
    (h : generate_body T = some body) :
    body.length = 4 + 12 * T.length + (genBlobs T).length := by
  obtain ⟨e, _, he, hb⟩ := generate_body_inv h
  subst hb
  simp only [List.length_append, length_u32be, genEntries_length T _ e he]

theorem generate_body_length_mod {T : TagTable} {body : Bytes}
    (h : generate_body T = some body) : body.length % 4 = 0 := by
  rw [generate_body_length h]
  have := genBlobs_length_mod T
  omega

theorem create_profile_inv {hdr body out : Bytes}
    (h : create_profile hdr body = some out) :
    body.length + 128 < 4294967296 ∧
      out = u32be (body.length + 128) ++ hdr.drop 4 ++ body := by
  simp only [create_profile, Option.map_eq_some'] at h
  obtain ⟨s, hs, ho⟩ := h
  obtain ⟨h1, h2⟩ := packU32_eq_some hs
  subst h2
  exact ⟨h1, by simp [← ho, List.append_assoc]⟩

/-! ### Tag table round-trip: entries written by `generate_body` parse back -/

/-- The 12-byte tag entries of table `T`, starting at entry index `i`, are
present in `d`, each recorded offset/length slicing back the exact value. -/
def EntriesAt (d : Bytes) : Nat → TagTable → Prop
  | _, [] => True
  | i, (k, v) :: rest =>
    132 + 12 * i + 12 ≤ d.length ∧
    sliceN d (132 + 12 * i) 4 = k ∧
    sliceN d (bytesToNatBE (sliceN d (132 + 12 * i + 4) 4))
      (bytesToNatBE (sliceN d (132 + 12 * i + 8) 4)) = v ∧
    EntriesAt d (i + 1) rest

theorem parseTagsGo_of_entriesAt (d : Bytes) :
    ∀ (T : TagTable) (i : Nat) (acc : TagTable), EntriesAt d i T →
      parseTagsGo d T.length i acc =
        some (T.foldl (fun a kv => a.insert kv.1 kv.2) acc)
  | [], _, _, _ => rfl
  | (k, v) :: rest, i, acc, h => by
    obtain ⟨hlen, hsig, hval, hrest⟩ := h
    simp only [List.length_cons, parseTagsGo, if_pos hlen, hsig, hval,
      List.foldl_cons]
    exact parseTagsGo_of_entriesAt d rest (i + 1) (acc.insert k v) hrest

theorem foldl_insert_of_keysNodup :
    ∀ (T : TagTable) (acc : TagTable), keysNodup (acc ++ T) →
      T.foldl (fun a kv => a.insert kv.1 kv.2) acc = acc ++ T
  | [], acc, _ => by simp
  | (k, v) :: rest, acc, h => by
    have hk : acc.containsKey k = false := by
      rw [containsKey_eq_false_iff]
      intro hm
      have hn : (tagKeys acc ++ tagKeys ((k, v) :: rest)).Nodup := by
        have : keysNodup (acc ++ (k, v) :: rest) := h
        simpa [keysNodup, tagKeys, List.map_append] using this
      exact (List.disjoint_of_nodup_append hn) hm (by simp [tagKeys])
    simp only [List.foldl_cons, insert_of_not_containsKey hk]
    have hass : (acc ++ [(k, v)]) ++ rest = acc ++ ((k, v) :: rest) := by
      simp
    have := foldl_insert_of_keysNodup rest (acc ++ [(k, v)]) (by rwa [hass])
    rw [this, hass]

theorem sliceN_prefix {A : Bytes} (B : Bytes) {n : Nat} (hA : A.length = n) :
    sliceN (A ++ B) 0 n = A := by
  subst hA
  simp [sliceN]

theorem sliceN_append_offset {A : Bytes} (B : Bytes) {p : Nat}
    (hA : A.length = p) (n : Nat) : sliceN (A ++ B) p n = sliceN B 0 n := by
  subst hA
  simpa using sliceN_append_right A B 0 n

theorem entriesAt_of_layout :
    ∀ (T : TagTable) (i off : Nat) (e : Bytes) (d : Bytes),
      (∀ kv ∈ T, (kv.1 : Bytes).length = 4) →
      genEntries T off = some e →
      sliceN d (132 + 12 * i) e.length = e →
      132 + 12 * i + e.length ≤ d.length →
      sliceN d off (genBlobs T).length = genBlobs T →
      off + (genBlobs T).length ≤ d.length →
      EntriesAt d i T
  | [], _, _, _, _, _, _, _, _, _, _ => trivial
  | (k, v) :: rest, i, off, e, d, hkeys, hE, hEpos, hEbnd, hBpos, hBbnd => by
    obtain ⟨eR, hoff32, hlen32, hER, he⟩ := genEntries_cons_inv hE
    have hk4 : k.length = 4 := hkeys (k, v) (by simp)
    have hp4 : pack4s k = k := pack4s_of_length_four hk4
    have heR : e = k ++ u32be off ++ u32be v.length ++ eR := by
      rw [he, hp4]
    have helen : e.length = 12 + eR.length := by
      rw [heR]
      simp only [List.length_append, length_u32be, hk4]
    have hBlen : (genBlobs ((k, v) :: rest)).length =
        v.length + padAmt v.length + (genBlobs rest).length := by
      simp [genBlobs_cons]
      omega
    have hsigEq : sliceN d (132 + 12 * i) 4 = k := by
      have h1 := sliceN_nested hEpos 0 4 (by omega)
      rw [Nat.add_zero] at h1
      rw [h1, heR, List.append_assoc, List.append_assoc]
      exact sliceN_prefix _ hk4
    have hoffEq : sliceN d (132 + 12 * i + 4) 4 = u32be off := by
      have h1 := sliceN_nested hEpos 4 4 (by omega)
      rw [h1, heR, List.append_assoc, List.append_assoc,
        sliceN_append_offset _ hk4]
      exact sliceN_prefix _ (length_u32be off)
    have hszEq : sliceN d (132 + 12 * i + 8) 4 = u32be v.length := by
      have h1 := sliceN_nested hEpos 8 4 (by omega)
      rw [h1, heR, List.append_assoc]
      rw [sliceN_append_offset _
        (show (k ++ u32be off).length = 8 by
          simp only [List.length_append, length_u32be, hk4])]
      exact sliceN_prefix _ (length_u32be _)
    have hvalEq : sliceN d off v.length = v := by
      have h1 := sliceN_nested hBpos 0 v.length (by omega)
      rw [Nat.add_zero] at h1
      rw [h1, genBlobs_cons, List.append_assoc]
      exact sliceN_prefix _ rfl
    show 132 + 12 * i + 12 ≤ d.length ∧
      sliceN d (132 + 12 * i) 4 = k ∧
      sliceN d (bytesToNatBE (sliceN d (132 + 12 * i + 4) 4))
        (bytesToNatBE (sliceN d (132 + 12 * i + 8) 4)) = v ∧
      EntriesAt d (i + 1) rest
    refine ⟨by omega, hsigEq, ?_, ?_⟩
    · rw [hoffEq, hszEq, bytesToNatBE_u32be hoff32, bytesToNatBE_u32be hlen32]
      exact hvalEq
    · have heRpos : sliceN d (132 + 12 * (i + 1)) eR.length = eR := by
        have h1 := sliceN_nested hEpos 12 eR.length (by omega)
        have h2 : 132 + 12 * (i + 1) = 132 + 12 * i + 12 := by omega
        rw [h2, h1, heR]
        rw [sliceN_append_offset _
          (show (k ++ u32be off ++ u32be v.length).length = 12 by
            simp only [List.length_append, length_u32be, hk4])]
        exact sliceN_full eR
      have hBrest : sliceN d (off + roundedSize v.length)
          (genBlobs rest).length = genBlobs rest := by
        have h1 := sliceN_nested hBpos (v.length + padAmt v.length)
          (genBlobs rest).length (by omega)
        rw [roundedSize_eq]
        rw [h1, genBlobs_cons]
        rw [sliceN_append_offset _
          (show (v ++ List.replicate (padAmt v.length) 0).length =
            v.length + padAmt v.length by simp)]
        exact sliceN_full (genBlobs rest)
      exact entriesAt_of_layout rest (i + 1) (off + roundedSize v.length) eR d
        (fun kv hm => hkeys kv (by simp [hm]))
        hER heRpos (by omega) hBrest (by rw [roundedSize_eq]; omega)

/-! ### `parse_tags` invariants and the full round-trip theorem -/

theorem parse_tags_length {d : Bytes} {T : TagTable}
    (h : parse_tags d = some T) : 132 ≤ d.length := by
  unfold parse_tags at h
  split at h
  · omega
  · exact absurd h (by simp)

theorem parseTagsGo_inv (d : Bytes) :
    ∀ (m i : Nat) (acc T : TagTable),
      parseTagsGo d m i acc = some T →
      (∀ kv ∈ acc, (kv.1 : Bytes).length = 4) → keysNodup acc →
      (∀ kv ∈ T, (kv.1 : Bytes).length = 4) ∧ keysNodup T
  | 0, _, acc, T, h, hk, hn => by
    obtain rfl : acc = T := Option.some.inj h
    exact ⟨hk, hn⟩
  | m + 1, i, acc, T, h, hk, hn => by
    rw [parseTagsGo] at h
    split at h
    · rename_i hbnd
      refine parseTagsGo_inv d m (i + 1) _ T h ?_ (keysNodup_insert hn)
      intro kv hm
      rcases mem_insert hm with h2 | h2
      · exact hk kv h2
      · rw [h2]
        exact length_sliceN_of_le (by omega)
    · exact absurd h (by simp)

theorem parse_tags_inv {d : Bytes} {T : TagTable} (h : parse_tags d = some T) :
    (∀ kv ∈ T, (kv.1 : Bytes).length = 4) ∧ keysNodup T := by
  unfold parse_tags at h
  split at h
  · exact parseTagsGo_inv d _ 0 [] T h (by simp) (by simp [keysNodup, tagKeys])
  · exact absurd h (by simp)

theorem parse_tags_roundtrip {d body out : Bytes} {T : TagTable}
    (hd : 132 ≤ d.length)
    (hkeys : ∀ kv ∈ T, (kv.1 : Bytes).length = 4)
    (hnodup : keysNodup T)
    (hbody : generate_body T = some body)
    (hout : create_profile (d.take 128) body = some out) :
    parse_tags out = some T := by
  obtain ⟨e, hT32, hE, hbody2⟩ := generate_body_inv hbody
  obtain ⟨h32, houtEq⟩ := create_profile_inv hout
  have helen := genEntries_length T _ e hE
  have hblen := generate_body_length hbody
  have hdrop : ((d.take 128).drop 4).length = 124 := by
    simp only [List.length_drop, List.length_take]
    omega
  have houtEq2 : out =
      (u32be (body.length + 128) ++ (d.take 128).drop 4) ++ body := houtEq
  have hPlen : (u32be (body.length + 128) ++ (d.take 128).drop 4).length =
      128 := by
    simp [length_u32be, hdrop]
  have houtLen : out.length = 128 + body.length := by
    rw [houtEq2]
    simp only [List.length_append, hPlen]
  have hgroup : (u32be (body.length + 128) ++ (d.take 128).drop 4) ++ body =
      (((u32be (body.length + 128) ++ (d.take 128).drop 4) ++
          u32be T.length) ++ e) ++ genBlobs T := by
    rw [hbody2]
    simp [List.append_assoc]
  have hcount : sliceN out 128 4 = u32be T.length := by
    rw [houtEq2, sliceN_append_offset _ hPlen, hbody2, List.append_assoc]
    exact sliceN_prefix _ (length_u32be _)
  have hEpos : sliceN out 132 e.length = e := by
    rw [houtEq2, hgroup, List.append_assoc]
    rw [sliceN_append_offset _
      (show ((u32be (body.length + 128) ++ (d.take 128).drop 4) ++
          u32be T.length).length = 132 by
        simp only [List.length_append, length_u32be, List.length_drop,
          List.length_take]
        omega)]
    exact sliceN_prefix _ rfl
  have hBpos : sliceN out (132 + T.length * 12) (genBlobs T).length =
      genBlobs T := by
    rw [houtEq2, hgroup]
    rw [sliceN_append_offset _
      (show (((u32be (body.length + 128) ++ (d.take 128).drop 4) ++
          u32be T.length) ++ e).length = 132 + T.length * 12 by
        simp only [List.length_append, length_u32be, List.length_drop,
          List.length_take, helen]
        omega)]
    exact sliceN_full _
  have hEA : EntriesAt out 0 T := by
    refine entriesAt_of_layout T 0 (132 + T.length * 12) e out hkeys hE
      ?_ (by rw [houtLen, hblen]; omega) hBpos (by rw [houtLen, hblen]; omega)
    simpa using hEpos
  rw [parse_tags, if_pos (by omega : 128 + 4 ≤ out.length), hcount,
    bytesToNatBE_u32be hT32, parseTagsGo_of_entriesAt out T 0 [] hEA,
    foldl_insert_of_keysNodup T [] (by simpa using hnodup)]
  simp

/-! ### `check_signature` helper lemmas -/

theorem check_signature_true_iff {d : Bytes} (h : 84 ≤ d.length) :
    check_signature d = some true ↔
      (bytesToNatBE (sliceN d 0 4) = d.length ∧
       bytesToNatBE (sliceN d 0 4) % 4 = 0 ∧
       sliceN d 36 4 = acspSig ∧
       bytesToNatBE (sliceN d 8 4) ≤ 71303168 ∧
       sliceN d 12 4 = mntrSig ∧
       sliceN d 16 4 = rgbSig ∧
       sliceN d 40 4 = msftSig ∧
       sliceN d 80 4 = msftSig) := by
  unfold check_signature
  rw [if_pos h]
  simp only [Option.some.injEq]
  split_ifs with h1 h2 h3 h4 h5 h6 h7 h8 <;> simp_all [not_lt]

/-! ### `main` unfolding helpers -/

theorem main_after_checks {dec : Bytes → Option Xml} {d : Bytes}
    {T : TagTable} {w : Bytes}
    (h1 : check_signature d = some true) (h2 : parse_tags d = some T)
    (h3 : T.containsKey vcgtSig = false) (h4 : T.lookup ms00Sig = some w) :
    main dec d =
      (match parse_wcs w with
       | none => .wcsStructError
       | some (cdmp, _, _) =>
         match dec cdmp with
         | none => .calibStructError
         | some root =>
           match extract_calib_data root with
           | none => .calibStructError
           | some calib =>
             match generate_vcgt calib with
             | none => .encodeRangeError
             | some v =>
               match generate_body (T.insert vcgtSig v) with
               | none => .buildPackError
               | some body =>
                 match create_profile (d.take 128) body with
                 | none => .buildPackError
                 | some out => .ok out) := by
  unfold main
  simp only [h1, h2, h3, Bool.false_eq_true, if_false, h4]

theorem main_ok_inv {dec : Bytes → Option Xml} {d out : Bytes}
    (h : main dec d = .ok out) :
    ∃ T w cdmp camp gmmp root calib v body,
      check_signature d = some true ∧ parse_tags d = some T ∧
      T.containsKey vcgtSig = false ∧ T.lookup ms00Sig = some w ∧
      parse_wcs w = some (cdmp, camp, gmmp) ∧ dec cdmp = some root ∧
      extract_calib_data root = some calib ∧ generate_vcgt calib = some v ∧
      generate_body (T.insert vcgtSig v) = some body ∧
      create_profile (d.take 128) body = some out := by
  unfold main at h
  cases hcs : check_signature d with
  | none => simp only [hcs] at h; exact absurd h (by simp)
  | some b =>
    cases b with
    | false => simp only [hcs] at h; exact absurd h (by simp)
    | true =>
      simp only [hcs] at h
      cases hpt : parse_tags d with
      | none => simp only [hpt] at h; exact absurd h (by simp)
      | some T =>
        simp only [hpt] at h
        cases hck : T.containsKey vcgtSig with
        | true => simp only [hck, if_true] at h; exact absurd h (by simp)
        | false =>
          simp only [hck, Bool.false_eq_true, if_false] at h
          cases hms : T.lookup ms00Sig with
          | none => simp only [hms] at h; exact absurd h (by simp)
          | some w =>
            simp only [hms] at h
            cases hpw : parse_wcs w with
            | none => simp only [hpw] at h; exact absurd h (by simp)
            | some triple =>
              obtain ⟨cdmp, camp, gmmp⟩ := triple
              simp only [hpw] at h
              cases hdec : dec cdmp with
              | none => simp only [hdec] at h; exact absurd h (by simp)
              | some root =>
                simp only [hdec] at h
                cases hex : extract_calib_data root with
                | none => simp only [hex] at h; exact absurd h (by simp)
                | some calib =>
                  simp only [hex] at h
                  cases hgv : generate_vcgt calib with
                  | none => simp only [hgv] at h; exact absurd h (by simp)
                  | some v =>
                    simp only [hgv] at h
                    cases hgb : generate_body (T.insert vcgtSig v) with
                    | none => simp only [hgb] at h; exact absurd h (by simp)
                    | some body =>
                      simp only [hgb] at h
                      cases hcp : create_profile (d.take 128) body with
                      | none => simp only [hcp] at h; exact absurd h (by simp)
                      | some o =>
                        simp only [hcp, MainOutcome.ok.injEq] at h
                        subst h
                        exact ⟨T, w, cdmp, camp, gmmp, root, calib, v, body,
                          rfl, rfl, hck, hms, hpw, hdec, hex, hgv, hgb, hcp⟩

/-! ### The produced output profile also passes the header check -/

theorem sliceN_mid_header {d : Bytes} {s : Nat} {body : Bytes} {o : Nat}
    (hd : 132 ≤ d.length) (h4 : 4 ≤ o) (h128 : o + 4 ≤ 128) :
    sliceN ((u32be s ++ (d.take 128).drop 4) ++ body) o 4 = sliceN d o 4 := by
  rw [sliceN_append_left body
    (by
      simp only [List.length_append, length_u32be, List.length_drop,
        List.length_take]
      omega)]
  have ho : o = (u32be s).length + (o - 4) := by
    simp only [length_u32be]
    omega
  rw [ho, sliceN_append_right]
  unfold sliceN
  rw [List.drop_drop, List.drop_take, List.take_take,
    Nat.min_eq_left (by omega)]
  have h1 : 4 + (o - 4) = o := by omega
  simp only [length_u32be, h1]

theorem check_signature_of_output {d body out : Bytes}
    (hd : 132 ≤ d.length)
    (hcs : check_signature d = some true)
    (hmod : body.length % 4 = 0)
    (hout : create_profile (d.take 128) body = some out) :
    check_signature out = some true := by
  obtain ⟨h32, houtEq⟩ := create_profile_inv hout
  obtain ⟨c1, c2, c3, c4, c5, c6, c7, c8⟩ :=
    (check_signature_true_iff (by omega)).mp hcs
  have houtLen : out.length = 128 + body.length := by
    rw [houtEq]
    simp only [List.length_append, length_u32be, List.length_drop,
      List.length_take]
    omega
  have hsize : sliceN out 0 4 = u32be (body.length + 128) := by
    rw [houtEq, List.append_assoc]
    exact sliceN_prefix _ (length_u32be _)
  apply (check_signature_true_iff (by omega)).mpr
  refine ⟨?_, ?_, ?_, ?_, ?_, ?_, ?_, ?_⟩
  · rw [hsize, bytesToNatBE_u32be h32, houtLen]
    omega
  · rw [hsize, bytesToNatBE_u32be h32]
    omega
  · rw [houtEq, sliceN_mid_header hd (by omega) (by omega)]
    exact c3
  · rw [houtEq, sliceN_mid_header hd (by omega) (by omega)]
    exact c4
  · rw [houtEq, sliceN_mid_header hd (by omega) (by omega)]
    exact c5
  · rw [houtEq, sliceN_mid_header hd (by omega) (by omega)]
    exact c6
  · rw [houtEq, sliceN_mid_header hd (by omega) (by omega)]
    exact c7
  · rw [houtEq, sliceN_mid_header hd (by omega) (by omega)]
    exact c8

/-! ### Structure of a successful `main` run -/

theorem main_ok_structure {dec : Bytes → Option Xml} {d out : Bytes}
    (h : main dec d = .ok out) :
    ∃ T v body,
      check_signature d = some true ∧
      parse_tags d = some T ∧
      T.containsKey vcgtSig = false ∧
      generate_body (T ++ [(vcgtSig, v)]) = some body ∧
      create_profile (d.take 128) body = some out := by
  obtain ⟨T, w, cdmp, camp, gmmp, root, calib, v, body, hcs, hpt, hck, hms,
    hpw, hdec, hex, hgv, hgb, hcp⟩ := main_ok_inv h
  rw [insert_of_not_containsKey hck] at hgb
  exact ⟨T, v, body, hcs, hpt, hck, hgb, hcp⟩

theorem main_alreadyHasVcgt {dec : Bytes → Option Xml} {d : Bytes}
    {T : TagTable}
    (h1 : check_signature d = some true) (h2 : parse_tags d = some T)
    (h3 : T.containsKey vcgtSig = true) : main dec d = .alreadyHasVcgt := by
  unfold main
  simp only [h1, h2, h3, if_true]

theorem parse_tags_of_ok {dec : Bytes → Option Xml} {d out : Bytes}
    (h : main dec d = .ok out) :
    ∃ T v, parse_tags d = some T ∧
      parse_tags out = some (T ++ [(vcgtSig, v)]) := by
  obtain ⟨T, v, body, hcs, hpt, hck, hgb, hcp⟩ := main_ok_structure h
  obtain ⟨hkeys, hnodup⟩ := parse_tags_inv hpt
  refine ⟨T, v, hpt, parse_tags_roundtrip (parse_tags_length hpt) ?_
    (keysNodup_append_singleton hnodup hck) hgb hcp⟩
  intro kv hm
  rcases List.mem_append.mp hm with h2 | h2
  · exact hkeys kv h2
  · simp only [List.mem_singleton] at h2
    rw [h2]
    rfl

/-! ### VCGT encoder helper lemmas -/

theorem encodeVal_eq_some {v : ℚ} (h0 : 0 ≤ pyInt (v * 65535))
    (h32 : pyInt (v * 65535) < 4294967296) :
    encodeVal v = some (u32be (pyInt (v * 65535)).toNat) := by
  unfold encodeVal packU32I
  rw [if_pos ⟨h0, h32⟩]

theorem encodeVal_eq_none {v : ℚ}
    (h : pyInt (v * 65535) < 0 ∨ 4294967296 ≤ pyInt (v * 65535)) :
    encodeVal v = none := by
  unfold encodeVal packU32I
  rw [if_neg]
  rintro ⟨h0, h32⟩
  omega

theorem encodeTriple_eq {t : Curve} {a b c : Bytes}
    (h1 : encodeVal t.1 = some a) (h2 : encodeVal t.2.1 = some b)
    (h3 : encodeVal t.2.2 = some c) :
    encodeTriple t = some (a ++ b ++ c) := by
  unfold encodeTriple
  rw [h1, h2, h3]
  rfl

theorem encodeTriple_none {t : Curve}
    (h : encodeVal t.1 = none ∨ encodeVal t.2.1 = none ∨
      encodeVal t.2.2 = none) :
    encodeTriple t = none := by
  unfold encodeTriple
  rcases h with h | h | h
  · rw [h]
    rfl
  · cases h1 : encodeVal t.1 <;> simp [h]
  · cases h1 : encodeVal t.1 <;> cases h2 : encodeVal t.2.1 <;> simp [h]

theorem generate_vcgt_eq {c : CalibData} {r g b : Bytes}
    (hr : encodeTriple c.r = some r) (hg : encodeTriple c.g = some g)
    (hb : encodeTriple c.b = some b) :
    generate_vcgt c = some (vcgtPrefix ++ r ++ g ++ b) := by
  unfold generate_vcgt
  rw [hr, hg, hb]
  rfl

theorem generate_vcgt_none {c : CalibData}
    (h : encodeTriple c.r = none ∨ encodeTriple c.g = none ∨
      encodeTriple c.b = none) :
    generate_vcgt c = none := by
  unfold generate_vcgt
  rcases h with h | h | h
  · rw [h]
    rfl
  · cases h1 : encodeTriple c.r <;> simp [h]
  · cases h1 : encodeTriple c.r <;> cases h2 : encodeTriple c.g <;> simp [h]

/-! ### Calibration data extraction helper lemmas -/

theorem extractChannel_default {pc : Xml} {t : String}
    (h : pc.findPath [t] = none) : extractChannel pc t = some (1, 0, 1) := by
  unfold extractChannel
  rw [h]

theorem extractChannel_none_of_attrs {pc : Xml} {t : String} {ct : Xml}
    (hct : pc.findPath [t] = some ct)
    (hbad : ct.attrs.all (fun kv => allowedAttrs.contains kv.1) = false) :
    extractChannel pc t = none := by
  unfold extractChannel
  simp only [hct, hbad, Bool.false_eq_true, if_false]

theorem extract_calib_data_eq {root pc : Xml} {r g b : Curve}
    (hpc : root.findPath calibPath = some pc)
    (hr : extractChannel pc redTag = some r)
    (hg : extractChannel pc greenTag = some g)
    (hb : extractChannel pc blueTag = some b) :
    extract_calib_data root = some ⟨r, g, b⟩ := by
  unfold extract_calib_data
  simp only [hpc, hr, hg, hb]
  rfl

theorem extract_calib_data_none_path {root : Xml}
    (h : root.findPath calibPath = none) : extract_calib_data root = none := by
  unfold extract_calib_data
  rw [h]

theorem extract_calib_data_none_channel {root pc : Xml}
    (hpc : root.findPath calibPath = some pc)
    (h : extractChannel pc redTag = none ∨
      extractChannel pc greenTag = none ∨ extractChannel pc blueTag = none) :
    extract_calib_data root = none := by
  unfold extract_calib_data
  simp only [hpc]
  rcases h with h | h | h
  · rw [h]
    rfl
  · cases h1 : extractChannel pc redTag <;> simp [h]
  · cases h1 : extractChannel pc redTag <;>
      cases h2 : extractChannel pc greenTag <;> simp [h]

theorem parse_wcs_none_of_sig {w : Bytes} (h : sliceN w 0 4 ≠ ms10Sig) :
    parse_wcs w = none := by
  unfold parse_wcs
  by_cases h32 : 32 ≤ w.length
  · rw [if_pos h32, if_neg h]
  · rw [if_neg h32]

/-! ### Rational arithmetic facts for the encoded calibration values -/

theorem pyInt_65535 : pyInt (65535 : ℚ) = 65535 := by
  unfold pyInt
  rw [Rat.num_ofNat, Rat.den_ofNat]
  decide

theorem pyInt_zeroQ : pyInt (0 : ℚ) = 0 := by
  unfold pyInt
  rw [Rat.num_zero, Rat.den_zero]
  decide

theorem pyInt_one : pyInt ((1 : ℚ) * 65535) = 65535 := by
  rw [one_mul]
  exact pyInt_65535

theorem pyInt_zero : pyInt ((0 : ℚ) * 65535) = 0 := by
  rw [zero_mul]
  exact pyInt_zeroQ

theorem pyInt_gamma22 : pyInt ((2.2 : ℚ) * 65535) = 144177 := by
  have h : (2.2 : ℚ) * 65535 = 144177 := by norm_num
  rw [h]
  unfold pyInt
  rw [Rat.num_ofNat, Rat.den_ofNat]
  decide

/-! ### Concrete sample inputs used by the witnesses -/

/-- Valid 128-byte header of a 176-byte profile: size 176, version
`0x02000000`, device class `mntr`, color space `RGB `, signature `acsp`,
platform and creator `MSFT`. -/
def sampleHeader : Bytes :=
  [0, 0, 0, 176] ++ [0, 0, 0, 0] ++ [2, 0, 0, 0] ++ mntrSig ++ rgbSig ++
    List.replicate 16 0 ++ acspSig ++ msftSig ++ List.replicate 36 0 ++
    msftSig ++ List.replicate 44 0

/-- Minimal WCS tag body: `MS10`, 4 reserved bytes, all three sub-block
descriptors zero. -/
def sampleWcs : Bytes := ms10Sig ++ List.replicate 28 0

/-- Valid 176-byte input profile with one tag, `MS00`, at offset 144. -/
def sampleProfile : Bytes :=
  sampleHeader ++ [0, 0, 0, 1] ++ ms00Sig ++ [0, 0, 0, 144] ++
    [0, 0, 0, 32] ++ sampleWcs

/-- Decoded ColorDeviceModel document with the calibration path present
and no per-channel curve elements. -/
def sampleDoc : Xml :=
  .node "CDM" []
    [.node (qn cdmNS "Calibration") []
      [.node (qn calNS "AdapterGammaConfiguration") []
        [.node (qn calNS "ParameterizedCurves") [] []]]]

/-- Decode oracle returning `sampleDoc` for any bytes. -/
def sampleDecode : Bytes → Option Xml := fun _ => some sampleDoc

/-- Calibration data of three identity curves. -/
def idCalib : CalibData := ⟨(1, 0, 1), (1, 0, 1), (1, 0, 1)⟩

/-- Encoded identity channel triple. -/
def idTripleBytes : Bytes := u32be 65535 ++ u32be 0 ++ u32be 65535

/-- VCGT tag generated for three identity curves. -/
def sampleVcgt : Bytes :=
  vcgtPrefix ++ idTripleBytes ++ idTripleBytes ++ idTripleBytes

/-- Serialized body of the output profile for `sampleProfile`. -/
def sampleBody : Bytes :=
  [0, 0, 0, 2] ++ ms00Sig ++ [0, 0, 0, 156] ++ [0, 0, 0, 32] ++
    vcgtSig ++ [0, 0, 0, 188] ++ [0, 0, 0, 48] ++ sampleWcs ++ sampleVcgt

/-- Output profile produced from `sampleProfile`. -/
def sampleOut : Bytes := [0, 0, 0, 236] ++ sampleHeader.drop 4 ++ sampleBody

/-- Otherwise-valid 132-byte profile whose tag table is empty, so no WCS
tag and no VCGT tag. -/
def noWcsProfile : Bytes :=
  [0, 0, 0, 132] ++ [0, 0, 0, 0] ++ [2, 0, 0, 0] ++ mntrSig ++ rgbSig ++
    List.replicate 16 0 ++ acspSig ++ msftSig ++ List.replicate 36 0 ++
    msftSig ++ List.replicate 44 0 ++ [0, 0, 0, 0]

/-! ### Claim theorems -/

/-- Claim C1: on any input long enough for the header unpack (at least 84
bytes), `check_signature` accepts exactly when all eight header conditions
hold: declared 32-bit size equals the actual byte length, that size is a
multiple of 4, signature is `acsp`, version is at most `0x04400000`,
device class is `mntr`, color space is `RGB `, platform is `MSFT`, and
creator is `MSFT`; any single failing condition makes it return false. -/
theorem c1_header_check_iff (d : Bytes) (h : 84 ≤ d.length) :
    check_signature d = some true ↔
      (bytesToNatBE (sliceN d 0 4) = d.length ∧
       bytesToNatBE (sliceN d 0 4) % 4 = 0 ∧
       sliceN d 36 4 = acspSig ∧
       bytesToNatBE (sliceN d 8 4) ≤ 71303168 ∧
       sliceN d 12 4 = mntrSig ∧
       sliceN d 16 4 = rgbSig ∧
       sliceN d 40 4 = msftSig ∧
       sliceN d 80 4 = msftSig) :=
  check_signature_true_iff h

/-- Witness for C1 at the concrete 176-byte sample profile. -/
theorem c1_header_check_iff_witness :
    check_signature sampleProfile = some true :=
  (c1_header_check_iff sampleProfile (by decide)).mpr (by decide)

/-- Claim C8: on an input whose header passes the check and whose parsed
tag table has no `vcgt` and no `MS00` key, `main` fails with the specific
`wcsMissing` outcome (the "WCS tag is not present" message), result code
1, no output written, and this outcome is distinct from the generic
invalid-profile outcome. -/
theorem c8_missing_wcs_tag (dec : Bytes → Option Xml) (d : Bytes)
    (T : TagTable)
    (h1 : check_signature d = some true) (h2 : parse_tags d = some T)
    (h3 : T.containsKey vcgtSig = false)
    (h4 : T.containsKey ms00Sig = false) :
    main dec d = .wcsMissing ∧ (main dec d).exitCode = 1 ∧
      (main dec d).written = none ∧
      MainOutcome.wcsMissing ≠ MainOutcome.invalidProfile := by
  have hm : main dec d = .wcsMissing := by
    unfold main
    simp only [h1, h2, h3, Bool.false_eq_true, if_false,
      lookup_eq_none_of_not_containsKey h4]
  exact ⟨hm, by rw [hm]; rfl, by rw [hm]; rfl, by simp⟩

/-- Witness for C8 at a concrete 132-byte profile with an empty tag
table. -/
theorem c8_missing_wcs_tag_witness :
    main (fun _ => none) noWcsProfile = .wcsMissing ∧
      (main (fun _ => none) noWcsProfile).exitCode = 1 :=
  have h := c8_missing_wcs_tag (fun _ => none) noWcsProfile []
    (by decide) (by decide) (by decide) (by decide)
  ⟨h.1, h.2.1⟩

/-- Claim C10: the clean rejection path of the header check has a
minimum-length precondition: on every input shorter than 84 bytes the
header unpack raises (`none`, a `struct.error`) instead of returning the
clean false, while on every input of at least 84 bytes the check returns
cleanly (some boolean). -/
theorem c10_short_input_header_check (d : Bytes) :
    (d.length < 84 → check_signature d = none) ∧
    (84 ≤ d.length → check_signature d ≠ none) := by
  constructor
  · intro h
    unfold check_signature
    rw [if_neg (by omega)]
  · intro h
    unfold check_signature
    rw [if_pos h]
    simp

/-- Witness for C10: the empty input raises, the sample profile does
not. -/
theorem c10_short_input_header_check_witness :
    check_signature [] = none ∧ check_signature sampleProfile ≠ none :=
  ⟨(c10_short_input_header_check []).1 (by decide),
   (c10_short_input_header_check sampleProfile).2 (by decide)⟩

/-! ### Encoded byte values for specific calibration values -/

theorem encodeVal_one : encodeVal (1 : ℚ) = some (u32be 65535) := by
  unfold encodeVal packU32I
  rw [pyInt_one]
  decide

theorem encodeVal_zero : encodeVal (0 : ℚ) = some (u32be 0) := by
  unfold encodeVal packU32I
  rw [pyInt_zero]
  decide

theorem encodeVal_gamma22 : encodeVal (2.2 : ℚ) = some (u32be 144177) := by
  unfold encodeVal packU32I
  rw [pyInt_gamma22]
  decide

theorem encodeTriple_id :
    encodeTriple ((1 : ℚ), (0 : ℚ), (1 : ℚ)) = some idTripleBytes :=
  encodeTriple_eq encodeVal_one encodeVal_zero encodeVal_one

theorem generate_vcgt_idCalib : generate_vcgt idCalib = some sampleVcgt :=
  generate_vcgt_eq encodeTriple_id encodeTriple_id encodeTriple_id

/-- Claim C5: the VCGT encoder converts each per-channel calibration value
`v` into the big-endian 32-bit encoding of `v * 65535` truncated toward
zero (`pyInt`, modelling Python `int`), emitting the channels in red,
green, blue order; and for the curve (gamma 2.2, offset 0, gain 1) the
three encoded integers are 144177, 0 and 65535. -/
theorem c5_vcgt_encoding :
    (∀ c : CalibData,
      (∀ v ∈ [c.r.1, c.r.2.1, c.r.2.2, c.g.1, c.g.2.1, c.g.2.2,
              c.b.1, c.b.2.1, c.b.2.2],
        0 ≤ pyInt (v * 65535) ∧ pyInt (v * 65535) < 4294967296) →
      generate_vcgt c = some (vcgtPrefix ++
        (u32be (pyInt (c.r.1 * 65535)).toNat ++
         u32be (pyInt (c.r.2.1 * 65535)).toNat ++
         u32be (pyInt (c.r.2.2 * 65535)).toNat) ++
        (u32be (pyInt (c.g.1 * 65535)).toNat ++
         u32be (pyInt (c.g.2.1 * 65535)).toNat ++
         u32be (pyInt (c.g.2.2 * 65535)).toNat) ++
        (u32be (pyInt (c.b.1 * 65535)).toNat ++
         u32be (pyInt (c.b.2.1 * 65535)).toNat ++
         u32be (pyInt (c.b.2.2 * 65535)).toNat))) ∧
    pyInt ((2.2 : ℚ) * 65535) = 144177 ∧
    pyInt ((0 : ℚ) * 65535) = 0 ∧
    pyInt ((1 : ℚ) * 65535) = 65535 ∧
    encodeTriple ((2.2 : ℚ), (0 : ℚ), (1 : ℚ)) =
      some (u32be 144177 ++ u32be 0 ++ u32be 65535) := by
  refine ⟨?_, pyInt_gamma22, pyInt_zero, pyInt_one,
    encodeTriple_eq encodeVal_gamma22 encodeVal_zero encodeVal_one⟩
  intro c h
  exact generate_vcgt_eq
    (encodeTriple_eq
      (encodeVal_eq_some (h _ (by simp)).1 (h _ (by simp)).2)
      (encodeVal_eq_some (h _ (by simp)).1 (h _ (by simp)).2)
      (encodeVal_eq_some (h _ (by simp)).1 (h _ (by simp)).2))
    (encodeTriple_eq
      (encodeVal_eq_some (h _ (by simp)).1 (h _ (by simp)).2)
      (encodeVal_eq_some (h _ (by simp)).1 (h _ (by simp)).2)
      (encodeVal_eq_some (h _ (by simp)).1 (h _ (by simp)).2))
    (encodeTriple_eq
      (encodeVal_eq_some (h _ (by simp)).1 (h _ (by simp)).2)
      (encodeVal_eq_some (h _ (by simp)).1 (h _ (by simp)).2)
      (encodeVal_eq_some (h _ (by simp)).1 (h _ (by simp)).2))

/-- Witness for C5: applying the encoder shape at the identity
calibration. -/
theorem c5_vcgt_encoding_witness : generate_vcgt idCalib = some sampleVcgt := by
  have h := c5_vcgt_encoding.1 idCalib (by
    intro v hv
    simp only [idCalib, List.mem_cons, List.not_mem_nil, or_false] at hv
    rcases hv with rfl | rfl | rfl | rfl | rfl | rfl | rfl | rfl | rfl <;>
      simp [pyInt_65535, pyInt_zeroQ])
  rw [h]
  simp only [idCalib, sampleVcgt, idTripleBytes, pyInt_one, pyInt_zero]
  rfl

/-- Claim C6: a channel whose named sub-element is absent from the
`ParameterizedCurves` element extracts as the identity curve
(gamma 1, offset 0, gain 1), and that curve encodes to the integers
65535, 0, 65535. -/
theorem c6_absent_channel_defaults :
    (∀ (pc : Xml) (t : String), pc.findPath [t] = none →
      extractChannel pc t = some (1, 0, 1)) ∧
    (∀ (root pc : Xml) (c : CalibData),
      root.findPath calibPath = some pc →
      extract_calib_data root = some c →
      ((pc.findPath [redTag] = none → c.r = (1, 0, 1)) ∧
       (pc.findPath [greenTag] = none → c.g = (1, 0, 1)) ∧
       (pc.findPath [blueTag] = none → c.b = (1, 0, 1)))) ∧
    encodeTriple ((1 : ℚ), (0 : ℚ), (1 : ℚ)) =
      some (u32be 65535 ++ u32be 0 ++ u32be 65535) := by
  refine ⟨fun pc t h => extractChannel_default h, ?_, encodeTriple_id⟩
  intro root pc c hpc hex
  refine ⟨?_, ?_, ?_⟩
  · intro habs
    have hr := extractChannel_default habs
    cases hg : extractChannel pc greenTag with
    | none =>
      rw [extract_calib_data_none_channel hpc (Or.inr (Or.inl hg))] at hex
      exact absurd hex (by simp)
    | some g =>
      cases hb : extractChannel pc blueTag with
      | none =>
        rw [extract_calib_data_none_channel hpc (Or.inr (Or.inr hb))] at hex
        exact absurd hex (by simp)
      | some b =>
        rw [extract_calib_data_eq hpc hr hg hb] at hex
        rw [← Option.some.inj hex]
  · intro habs
    have hg := extractChannel_default habs
    cases hr : extractChannel pc redTag with
    | none =>
      rw [extract_calib_data_none_channel hpc (Or.inl hr)] at hex
      exact absurd hex (by simp)
    | some r =>
      cases hb : extractChannel pc blueTag with
      | none =>
        rw [extract_calib_data_none_channel hpc (Or.inr (Or.inr hb))] at hex
        exact absurd hex (by simp)
      | some b =>
        rw [extract_calib_data_eq hpc hr hg hb] at hex
        rw [← Option.some.inj hex]
  · intro habs
    have hb := extractChannel_default habs
    cases hr : extractChannel pc redTag with
    | none =>
      rw [extract_calib_data_none_channel hpc (Or.inl hr)] at hex
      exact absurd hex (by simp)
    | some r =>
      cases hg : extractChannel pc greenTag with
      | none =>
        rw [extract_calib_data_none_channel hpc (Or.inr (Or.inl hg))] at hex
        exact absurd hex (by simp)
      | some g =>
        rw [extract_calib_data_eq hpc hr hg hb] at hex
        rw [← Option.some.inj hex]

/-- Witness for C6 at the sample document (all three channel elements
absent). -/
theorem c6_absent_channel_defaults_witness :
    extractChannel (Xml.node (qn calNS "ParameterizedCurves") [] [])
      redTag = some (1, 0, 1) ∧
    idCalib.r = (1, 0, 1) :=
  ⟨c6_absent_channel_defaults.1 _ redTag rfl,
   (c6_absent_channel_defaults.2.1 sampleDoc
      (Xml.node (qn calNS "ParameterizedCurves") [] []) idCalib rfl rfl).1 rfl⟩

/-! ### C7: out-of-range calibration values -/

/-- Calibration data whose red offset has `v * 65535 = -1/2`, a product
outside the 32-bit unsigned range whose truncation is 0. -/
def c7Calib : CalibData := ⟨(1, -1 / 131070, 1), (1, 0, 1), (1, 0, 1)⟩

theorem pyInt_smallNeg : pyInt ((-1 / 131070 : ℚ) * 65535) = 0 := by
  have h : (-1 / 131070 : ℚ) * 65535 = -1 / 2 := by norm_num
  rw [h]
  unfold pyInt
  have hn : ((-1 / 2 : ℚ)).num = -1 := by norm_num [Rat.num]
  have hd : ((-1 / 2 : ℚ)).den = 2 := by norm_num [Rat.den]
  rw [hn, hd]
  decide

theorem encodeVal_smallNeg :
    encodeVal (-1 / 131070 : ℚ) = some (u32be 0) := by
  unfold encodeVal packU32I
  rw [pyInt_smallNeg]
  decide

/-- Counterexample to C7 as stated: the red-channel offset value
`-1/131070` has product `-1/2`, which lies outside the 32-bit unsigned
integer range, yet the encoder does not reject it: the truncation toward
zero lands on 0 and the value is silently encoded. -/
theorem c7_counterexample :
    ((-1 / 131070 : ℚ) * 65535 < 0) ∧
    pyInt ((-1 / 131070 : ℚ) * 65535) = 0 ∧
    generate_vcgt c7Calib = some sampleVcgt ∧
    generate_vcgt c7Calib ≠ none := by
  have hgen : generate_vcgt c7Calib = some sampleVcgt :=
    generate_vcgt_eq
      (encodeTriple_eq encodeVal_one encodeVal_smallNeg encodeVal_one)
      encodeTriple_id encodeTriple_id
  exact ⟨by norm_num, pyInt_smallNeg, hgen, by rw [hgen]; simp⟩

theorem pyInt_negOne : pyInt ((-1 : ℚ) * 65535) = -65535 := by
  have h : (-1 : ℚ) * 65535 = -65535 := by norm_num
  rw [h]
  unfold pyInt
  have hn : ((-65535 : ℚ)).num = -65535 := by norm_num [Rat.num]
  have hd : ((-65535 : ℚ)).den = 1 := by norm_num [Rat.den]
  rw [hn, hd]
  decide

/-- Claim C7 (amended): for every calibration value whose product
`v * 65535`, once truncated toward zero (as Python `int` does before
packing), falls outside the 32-bit unsigned range, the VCGT encoder
rejects the whole encoding (`struct.error`, modelled as `none`) rather
than silently wrapping the value. -/
theorem c7_no_silent_wrap (c : CalibData) (v : ℚ)
    (hv : v ∈ [c.r.1, c.r.2.1, c.r.2.2, c.g.1, c.g.2.1, c.g.2.2,
               c.b.1, c.b.2.1, c.b.2.2])
    (hout : pyInt (v * 65535) < 0 ∨ 4294967296 ≤ pyInt (v * 65535)) :
    generate_vcgt c = none := by
  have he : encodeVal v = none := encodeVal_eq_none hout
  simp only [List.mem_cons, List.not_mem_nil, or_false] at hv
  rcases hv with rfl | rfl | rfl | rfl | rfl | rfl | rfl | rfl | rfl
  · exact generate_vcgt_none (Or.inl (encodeTriple_none (Or.inl he)))
  · exact generate_vcgt_none (Or.inl (encodeTriple_none (Or.inr (Or.inl he))))
  · exact generate_vcgt_none (Or.inl (encodeTriple_none (Or.inr (Or.inr he))))
  · exact generate_vcgt_none
      (Or.inr (Or.inl (encodeTriple_none (Or.inl he))))
  · exact generate_vcgt_none
      (Or.inr (Or.inl (encodeTriple_none (Or.inr (Or.inl he)))))
  · exact generate_vcgt_none
      (Or.inr (Or.inl (encodeTriple_none (Or.inr (Or.inr he)))))
  · exact generate_vcgt_none
      (Or.inr (Or.inr (encodeTriple_none (Or.inl he))))
  · exact generate_vcgt_none
      (Or.inr (Or.inr (encodeTriple_none (Or.inr (Or.inl he)))))
  · exact generate_vcgt_none
      (Or.inr (Or.inr (encodeTriple_none (Or.inr (Or.inr he)))))

/-- Witness for the amended C7: a red gamma of `-1` (truncated product
`-65535`, below the unsigned range) makes the encoder fail. -/
theorem c7_no_silent_wrap_witness :
    generate_vcgt ⟨((-1 : ℚ), 0, 1), (1, 0, 1), (1, 0, 1)⟩ = none :=
  c7_no_silent_wrap ⟨((-1 : ℚ), 0, 1), (1, 0, 1), (1, 0, 1)⟩ (-1)
    (by simp) (Or.inl (by rw [pyInt_negOne]; decide))

/-- Claim C9: once the header check, tag parse, VCGT-absence check and WCS
lookup have succeeded, each structural violation — WCS sub-tag signature
other than `MS10`, missing
`Calibration/AdapterGammaConfiguration/ParameterizedCurves` element, or a
present channel element carrying an attribute outside
`{Gamma, Offset1, Gain}` — makes `main` fail with the corresponding
malformed-WCS-structure outcome (distinct from the reported conditions),
writing no output bytes. -/
theorem c9_structural_violations :
    (∀ (dec : Bytes → Option Xml) (d : Bytes) (T : TagTable) (w : Bytes),
      check_signature d = some true → parse_tags d = some T →
      T.containsKey vcgtSig = false → T.lookup ms00Sig = some w →
      sliceN w 0 4 ≠ ms10Sig →
      main dec d = .wcsStructError ∧ (main dec d).written = none) ∧
    (∀ (dec : Bytes → Option Xml) (d : Bytes) (T : TagTable)
        (w cdmp camp gmmp : Bytes) (root : Xml),
      check_signature d = some true → parse_tags d = some T →
      T.containsKey vcgtSig = false → T.lookup ms00Sig = some w →
      parse_wcs w = some (cdmp, camp, gmmp) → dec cdmp = some root →
      root.findPath calibPath = none →
      main dec d = .calibStructError ∧ (main dec d).written = none) ∧
    (∀ (dec : Bytes → Option Xml) (d : Bytes) (T : TagTable)
        (w cdmp camp gmmp : Bytes) (root pc : Xml) (t : String) (ct : Xml),
      check_signature d = some true → parse_tags d = some T →
      T.containsKey vcgtSig = false → T.lookup ms00Sig = some w →
      parse_wcs w = some (cdmp, camp, gmmp) → dec cdmp = some root →
      root.findPath calibPath = some pc →
      t ∈ [redTag, greenTag, blueTag] →
      pc.findPath [t] = some ct →
      (ct.attrs.all fun kv => allowedAttrs.contains kv.1) = false →
      main dec d = .calibStructError ∧ (main dec d).written = none) ∧
    (MainOutcome.wcsStructError ≠ MainOutcome.invalidProfile ∧
     MainOutcome.calibStructError ≠ MainOutcome.invalidProfile ∧
     MainOutcome.wcsStructError ≠ MainOutcome.wcsMissing ∧
     MainOutcome.calibStructError ≠ MainOutcome.wcsMissing) := by
  refine ⟨?_, ?_, ?_, by simp, by simp, by simp, by simp⟩
  · intro dec d T w h1 h2 h3 h4 h5
    have hm : main dec d = .wcsStructError := by
      rw [main_after_checks h1 h2 h3 h4]
      simp only [parse_wcs_none_of_sig h5]
    exact ⟨hm, by rw [hm]; rfl⟩
  · intro dec d T w cdmp camp gmmp root h1 h2 h3 h4 hpw hdec hpath
    have hm : main dec d = .calibStructError := by
      rw [main_after_checks h1 h2 h3 h4]
      simp only [hpw, hdec, extract_calib_data_none_path hpath]
    exact ⟨hm, by rw [hm]; rfl⟩
  · intro dec d T w cdmp camp gmmp root pc t ct h1 h2 h3 h4 hpw hdec hpc
      hmem hct hbad
    have hch : extractChannel pc t = none := extractChannel_none_of_attrs hct hbad
    have hex : extract_calib_data root = none := by
      simp only [List.mem_cons, List.not_mem_nil, or_false] at hmem
      rcases hmem with rfl | rfl | rfl
      · exact extract_calib_data_none_channel hpc (Or.inl hch)
      · exact extract_calib_data_none_channel hpc (Or.inr (Or.inl hch))
      · exact extract_calib_data_none_channel hpc (Or.inr (Or.inr hch))
    have hm : main dec d = .calibStructError := by
      rw [main_after_checks h1 h2 h3 h4]
      simp only [hpw, hdec, hex]
    exact ⟨hm, by rw [hm]; rfl⟩

/-- WCS tag body whose internal signature is `XX10` instead of `MS10`. -/
def badWcs : Bytes := [88, 88, 49, 48] ++ List.replicate 28 0

/-- Profile identical to `sampleProfile` but with the corrupted WCS tag
body. -/
def badSigProfile : Bytes :=
  sampleHeader ++ [0, 0, 0, 1] ++ ms00Sig ++ [0, 0, 0, 144] ++
    [0, 0, 0, 32] ++ badWcs

/-- Decoded document lacking the calibration path entirely. -/
def emptyDoc : Xml := .node "CDM" [] []

/-- Channel element with an attribute outside the allowed set. -/
def badAttrChannel : Xml := .node redTag [("Foo", 1)] []

/-- Decoded document whose RedTRC element carries the unexpected
attribute `Foo`. -/
def badAttrDoc : Xml :=
  .node "CDM" []
    [.node (qn cdmNS "Calibration") []
      [.node (qn calNS "AdapterGammaConfiguration") []
        [.node (qn calNS "ParameterizedCurves") [] [badAttrChannel]]]]

/-- Witness for C9: each of the three structural violations at a concrete
input. -/
theorem c9_structural_violations_witness :
    main (fun _ => none) badSigProfile = .wcsStructError ∧
    main (fun _ => some emptyDoc) sampleProfile = .calibStructError ∧
    main (fun _ => some badAttrDoc) sampleProfile = .calibStructError :=
  ⟨(c9_structural_violations.1 (fun _ => none) badSigProfile
      [(ms00Sig, badWcs)] badWcs (by decide) (by decide) (by decide)
      (by decide) (by decide)).1,
   (c9_structural_violations.2.1 (fun _ => some emptyDoc) sampleProfile
      [(ms00Sig, sampleWcs)] sampleWcs [] [] [] emptyDoc (by decide)
      (by decide) (by decide) (by decide) (by decide) rfl rfl).1,
   (c9_structural_violations.2.2.1 (fun _ => some badAttrDoc) sampleProfile
      [(ms00Sig, sampleWcs)] sampleWcs [] [] [] badAttrDoc
      (.node (qn calNS "ParameterizedCurves") [] [badAttrChannel])
      redTag badAttrChannel (by decide) (by decide) (by decide) (by decide)
      (by decide) rfl rfl (by simp) rfl rfl).1⟩

/-- Claim C2: whenever `main` succeeds, the output's declared 32-bit size
field equals 128 plus the length of the serialized body, that value is
the actual length of the output bytes, and it is a positive multiple of
4. -/
theorem c2_output_size (dec : Bytes → Option Xml) (d out : Bytes)
    (h : main dec d = .ok out) :
    ∃ T v body,
      parse_tags d = some T ∧
      generate_body (T ++ [(vcgtSig, v)]) = some body ∧
      bytesToNatBE (sliceN out 0 4) = 128 + body.length ∧
      out.length = 128 + body.length ∧
      (128 + body.length) % 4 = 0 ∧
      0 < 128 + body.length := by
  obtain ⟨T, v, body, hcs, hpt, hck, hgb, hcp⟩ := main_ok_structure h
  obtain ⟨h32, houtEq⟩ := create_profile_inv hcp
  have hd := parse_tags_length hpt
  have hmod := generate_body_length_mod hgb
  refine ⟨T, v, body, hpt, hgb, ?_, ?_, by omega, by omega⟩
  · have hs : sliceN out 0 4 = u32be (body.length + 128) := by
      rw [houtEq, List.append_assoc]
      exact sliceN_prefix _ (length_u32be _)
    rw [hs, bytesToNatBE_u32be h32]
    omega
  · rw [houtEq]
    simp only [List.length_append, length_u32be, List.length_drop,
      List.length_take]
    omega

/-- Claim C3: whenever `main` succeeds, parsing the output recovers every
tag of the input byte-identically, in the same relative order, with the
new VCGT tag appended after all of them. -/
theorem c3_tags_preserved (dec : Bytes → Option Xml) (d out : Bytes)
    (h : main dec d = .ok out) :
    ∃ T v, parse_tags d = some T ∧
      parse_tags out = some (T ++ [(vcgtSig, v)]) :=
  parse_tags_of_ok h

/-- Claim C4: whenever `main` succeeds, running `main` again (with any
decode oracle) on the produced output fails with the already-has-VCGT
condition, result code 1, and writes no output. -/
theorem c4_idempotence (dec dec2 : Bytes → Option Xml) (d out : Bytes)
    (h : main dec d = .ok out) :
    main dec2 out = .alreadyHasVcgt ∧
      (main dec2 out).exitCode = 1 ∧ (main dec2 out).written = none := by
  obtain ⟨T, v, body, hcs, hpt, hck, hgb, hcp⟩ := main_ok_structure h
  have hd := parse_tags_length hpt
  have hcso : check_signature out = some true :=
    check_signature_of_output hd hcs (generate_body_length_mod hgb) hcp
  obtain ⟨T2, v2, hpt2, hpto⟩ := parse_tags_of_ok h
  have hm : main dec2 out = .alreadyHasVcgt :=
    main_alreadyHasVcgt hcso hpto (containsKey_append_singleton T2 vcgtSig v2)
  exact ⟨hm, by rw [hm]; rfl, by rw [hm]; rfl⟩

/-- The conversion succeeds on the concrete sample profile, producing
`sampleOut`. -/
theorem main_sampleProfile :
    main sampleDecode sampleProfile = .ok sampleOut := by
  rw [main_after_checks (T := [(ms00Sig, sampleWcs)]) (w := sampleWcs)
    (by decide) (by decide) (by decide) (by decide)]
  simp only [show parse_wcs sampleWcs = some ([], [], []) from by decide,
    show sampleDecode [] = some sampleDoc from rfl,
    show extract_calib_data sampleDoc = some idCalib from rfl,
    generate_vcgt_idCalib]
  decide

/-- Witness for C2 at the concrete sample profile. -/
theorem c2_output_size_witness :
    ∃ T v body,
      parse_tags sampleProfile = some T ∧
      generate_body (T ++ [(vcgtSig, v)]) = some body ∧
      bytesToNatBE (sliceN sampleOut 0 4) = 128 + body.length ∧
      sampleOut.length = 128 + body.length ∧
      (128 + body.length) % 4 = 0 ∧
      0 < 128 + body.length :=
  c2_output_size sampleDecode sampleProfile sampleOut main_sampleProfile

/-- Witness for C3 at the concrete sample profile. -/
theorem c3_tags_preserved_witness :
    ∃ T v, parse_tags sampleProfile = some T ∧
      parse_tags sampleOut = some (T ++ [(vcgtSig, v)]) :=
  c3_tags_preserved sampleDecode sampleProfile sampleOut main_sampleProfile

/-- Witness for C4 at the concrete sample profile. -/
theorem c4_idempotence_witness :
    main sampleDecode sampleOut = .alreadyHasVcgt ∧
      (main sampleDecode sampleOut).exitCode = 1 ∧
      (main sampleDecode sampleOut).written = none :=
  c4_idempotence sampleDecode sampleDecode sampleProfile sampleOut
    main_sampleProfile

end IccWcsVcgt
